import Mathlib

/-!
Verification of `folx/experimental/pallas/mha.py` (masked multi-head attention).

Embedding conventions:
* Tensors are total functions `ℕ → ... → ℚ` over exact rationals; shape parameters
  `B S H D` (batch, sequence, heads, head_dim) bound the index ranges the theorems
  quantify over.
* `jnp.exp` inside `jax.nn.softmax` is modelled by an abstract function `E : ℚ → ℚ`
  constrained by `FloatExpLike`: it underflows to exactly `0` on arguments below
  `-10^18` (as IEEE doubles do far earlier) and is positive above that threshold.
  `jax.nn.softmax` subtracts the row maximum before exponentiating, which the
  embedding reproduces (`softmaxRow`).
* The helper module `folx/experimental/pallas/utils.py` (tiling planner and block
  specs) is not part of the sources; the planner is modelled from the spec where
  noted, and the block specs are reflected directly in how `mha_kernel` indexes the
  global tensors (query rows `t*L + i`, full key/value/mask rows).
-/

/-- 4-dimensional tensor of exact rationals, indexed `batch, sequence, head, head_dim`. -/
def Tensor : Type := ℕ → ℕ → ℕ → ℕ → ℚ

/-- Boolean validity mask, indexed `batch, sequence`. -/
def Mask : Type := ℕ → ℕ → Bool

/-- The sentinel that both kernels write into masked score entries (`-1e20`). -/
def sentinel : ℚ := -(10 ^ 20)

/-- Maximum of `f 0, ..., f (S-1)` (the row maximum that `jax.nn.softmax`
subtracts); the source only ever takes it over a nonempty axis, so the
degenerate `S = 0` case is given the harmless value `f 0`. -/
def rowMax (f : ℕ → ℚ) : ℕ → ℚ
  | 0 => f 0
  | n + 1 => max (rowMax f n) (f n)

/-- Softmax denominator: the sum of exponentials of the max-shifted row. -/
def softmaxDenom (E : ℚ → ℚ) (S : ℕ) (f : ℕ → ℚ) : ℚ :=
  (Finset.range S).sum fun m => E (f m - rowMax f S)

/-- `jax.nn.softmax` along a row of length `S`, with the max-subtraction that the
library performs, and exponentiation modelled by `E`. -/
def softmaxRow (E : ℚ → ℚ) (S : ℕ) (f : ℕ → ℚ) (j : ℕ) : ℚ :=
  E (f j - rowMax f S) / softmaxDenom E S f

/-- A function behaves like floating-point `exp`: it underflows to exactly zero on
very negative arguments (IEEE doubles underflow long before `-10^18`) and is
strictly positive elsewhere. -/
def FloatExpLike (E : ℚ → ℚ) : Prop :=
  (∀ x : ℚ, x ≤ -(10 ^ 18) → E x = 0) ∧ (∀ x : ℚ, -(10 ^ 18) < x → 0 < E x)

/-- Square mask of `reference_mha_kernel` line 74:
`mask[:, None, None, :] * mask[:, :, None, None]` at index `[b, i, h, j]`. -/
def refSquareMask (mask : Mask) (b i j : ℕ) : Bool :=
  mask b j && mask b i

/-- Raw scores of `reference_mha_kernel` line 75: `einsum("Biha,Bjha->Bihj", q, k)`. -/
def refScores (D : ℕ) (q k : Tensor) (b i h j : ℕ) : ℚ :=
  (Finset.range D).sum fun a => q b i h a * k b j h a

/-- Masked scores of `reference_mha_kernel` line 76: `where(square_mask, s, -1e20)`. -/
def refMaskedScores (D : ℕ) (q k : Tensor) (mask : Mask) (b i h j : ℕ) : ℚ :=
  if refSquareMask mask b i j then refScores D q k b i h j else sentinel

/-- Softmax probabilities of `reference_mha_kernel` line 77: `softmax(s, axis=-1)`. -/
def refP (E : ℚ → ℚ) (S D : ℕ) (q k : Tensor) (mask : Mask) (b i h j : ℕ) : ℚ :=
  softmaxRow E S (refMaskedScores D q k mask b i h) j

/-- `reference_mha_kernel` (mha.py lines 64-79): dense masked attention,
`o = einsum("Bihj,Bjha->Biha", p, v)`. -/
def reference_mha_kernel (E : ℚ → ℚ) (S D : ℕ) (q k v : Tensor) (mask : Mask) :
    Tensor :=
  fun b i h a => (Finset.range S).sum fun j => refP E S D q k mask b i h j * v b j h a

/-- `mha_kernel` line 106: the query-tile slice of the mask,
`pl_load(mask_ref, (q_slice,))` with `q_slice = dslice(q_idx * q_block_len, q_block_len)`. -/
def pallas_q_mask (L : ℕ) (mask : Mask) (b t i : ℕ) : Bool :=
  mask b (t * L + i)

/-- `mha_kernel` line 107: `square_mask = q_mask[:, None] * kv_mask[None, :]`
(`kv_mask = mask_ref[:]`, line 104). -/
def pallas_square_mask (L : ℕ) (mask : Mask) (b t i j : ℕ) : Bool :=
  pallas_q_mask L mask b t i && mask b j

/-- `mha_kernel` line 109: `q = where(q_mask[:, None], q_ref[:, :], 0.0)`; the query
block spec materialises rows `t*L + i` of the global tensor for grid cell `(b, h, t)`. -/
def pallas_q (L : ℕ) (q : Tensor) (mask : Mask) (b h t i a : ℕ) : ℚ :=
  if pallas_q_mask L mask b t i then q b (t * L + i) h a else 0

/-- `mha_kernel` line 110: `k = where(kv_mask[:, None], k_ref[:, :], 0.0)`; the
key/value block spec covers the full sequence. -/
def pallas_k (k : Tensor) (mask : Mask) (b h j a : ℕ) : ℚ :=
  if mask b j then k b j h a else 0

/-- `mha_kernel` line 111: `v = where(kv_mask[:, None], v_ref[:, :], 0.0)`. -/
def pallas_v (v : Tensor) (mask : Mask) (b h j a : ℕ) : ℚ :=
  if mask b j then v b j h a else 0

/-- `mha_kernel` line 112: `s = where(square_mask, pl_dot(q, k, trans_b=True), -1e20)`. -/
def pallas_s (L D : ℕ) (q k : Tensor) (mask : Mask) (b h t i j : ℕ) : ℚ :=
  if pallas_square_mask L mask b t i j then
    (Finset.range D).sum fun a => pallas_q L q mask b h t i a * pallas_k k mask b h j a
  else sentinel

/-- `mha_kernel` line 113: `p = jax.nn.softmax(s, axis=1)`. -/
def pallas_p (E : ℚ → ℚ) (S L D : ℕ) (q k : Tensor) (mask : Mask) (b h t i j : ℕ) : ℚ :=
  softmaxRow E S (pallas_s L D q k mask b h t i) j

/-- `mha_kernel` (mha.py lines 82-115) for grid cell `(b, h, t)`: local output row `i`,
column `a`, is row `i` of `o = pl_dot(p, v)` (lines 114-115). -/
def mha_kernel (E : ℚ → ℚ) (S L D : ℕ) (q k v : Tensor) (mask : Mask)
    (b h t i a : ℕ) : ℚ :=
  (Finset.range S).sum fun j => pallas_p E S L D q k mask b h t i j * pallas_v v mask b h j a

/-- Modelled from the spec: `compute_q_and_kv_block_len` lives in
`folx/experimental/pallas/utils.py`, which is not among the sources. Per spec section
4.1 the planner takes the sequence length and an optional query-tile override,
defaults the query block length to the sequence length when no override is given,
always returns the full sequence length as the key/value block length, and fails
with a configuration error when the sequence length is not evenly divisible by the
chosen query block length. -/
def compute_q_and_kv_block_len (seq_len : ℕ) (q_block_len : Option ℕ) :
    Except String (ℕ × ℕ) :=
  let qbl := q_block_len.getD seq_len
  if seq_len % qbl = 0 then Except.ok (qbl, seq_len)
  else Except.error "Sequence length must be divisible by the query block length"

/-- `mha` (mha.py lines 20-61): the dispatcher. `input_mask` is deleted unused
(line 33); the planner runs before the backend branch (line 35); the `"pallas"`
branch launches `mha_kernel` over the grid, assembling global output row `s` from
tile `s / q_block_len`, local row `s % q_block_len`; the `"reference"` branch calls
`reference_mha_kernel` directly; any other name raises `ValueError`. -/
def mha (E : ℚ → ℚ) (B S H D : ℕ) (q k v : Tensor) (mask input_mask : Mask)
    (kern : String) (q_block_len : Option ℕ) : Except String Tensor :=
  match compute_q_and_kv_block_len S q_block_len with
  | Except.error e => Except.error e
  | Except.ok (qbl, _kvbl) =>
    if kern = "pallas" then
      Except.ok fun b s h a => mha_kernel E S qbl D q k v mask b h (s / qbl) (s % qbl) a
    else if kern = "reference" then
      Except.ok (reference_mha_kernel E S D q k v mask)
    else Except.error (String.append "Unknown multi-head attention kernel: " kern)

/-- Read one entry of a successful result (`0` for the error case). -/
def outAt (r : Except String Tensor) (b i h a : ℕ) : ℚ :=
  match r with
  | Except.ok f => f b i h a
  | Except.error _ => 0

/-- Concrete float-like exponential used for witnesses and counterexamples. -/
def Efl : ℚ → ℚ := fun x => if x ≤ -(10 ^ 18) then 0 else 1

/-- The all-zero tensor. -/
def qZero : Tensor := fun _ _ _ _ => 0

/-- A value tensor that is `2` at sequence position `1` and `0` elsewhere. -/
def vC : Tensor := fun _ j _ _ => if j = 1 then 2 else 0

/-- Mask that validates only sequence position `0`. -/
def mTF : Mask := fun _ j => j == 0

/-- The all-true mask. -/
def mTT : Mask := fun _ _ => true

/-- A tensor together with its shape `(batch, sequence, heads, head_dim)`, for the
shape-preservation contract. -/
structure Tensor4 where
  shape : ℕ × ℕ × ℕ × ℕ
  data : Tensor

/-- The dispatcher with shape bookkeeping made explicit: the `"pallas"` branch
declares `out_shape` equal to q's shape (mha.py lines 47-50), while the reference
branch's output shape follows the einsum contraction `Bihj,Bjha->Biha` — batch,
sequence and heads from `q`, trailing dimension from `v`. -/
def mha_shaped (E : ℚ → ℚ) (q k v : Tensor4) (mask input_mask : Mask) (kern : String)
    (q_block_len : Option ℕ) : Except String Tensor4 :=
  match compute_q_and_kv_block_len q.shape.2.1 q_block_len with
  | Except.error e => Except.error e
  | Except.ok (qbl, _kvbl) =>
    if kern = "pallas" then
      Except.ok ⟨q.shape, fun b s h a =>
        mha_kernel E q.shape.2.1 qbl q.shape.2.2.2 q.data k.data v.data mask
          b h (s / qbl) (s % qbl) a⟩
    else if kern = "reference" then
      Except.ok ⟨(q.shape.1, q.shape.2.1, q.shape.2.2.1, v.shape.2.2.2),
        reference_mha_kernel E q.shape.2.1 q.shape.2.2.2 q.data k.data v.data mask⟩
    else Except.error (String.append "Unknown multi-head attention kernel: " kern)

/-- Shape of a successful result (`(0,0,0,0)` for the error case). -/
def shapeOf (r : Except String Tensor4) : ℕ × ℕ × ℕ × ℕ :=
  match r with
  | Except.ok t => t.shape
  | Except.error _ => (0, 0, 0, 0)

/-- Concrete shaped query tensor for witnesses. -/
def q4 : Tensor4 := ⟨(1, 2, 1, 1), qZero⟩

/-- Concrete shaped value tensor for witnesses. -/
def v4 : Tensor4 := ⟨(1, 2, 1, 1), vC⟩

theorem Efl_floatExpLike : FloatExpLike Efl := by
  constructor
  · intro x hx
    simp [Efl, hx]
  · intro x hx
    simp [Efl, not_le.mpr hx]

theorem mha_pallas_eq (E : ℚ → ℚ) (B S H D : ℕ) (q k v : Tensor) (mask im : Mask)
    (qbl : Option ℕ) (hdvd : S % qbl.getD S = 0) :
    mha E B S H D q k v mask im "pallas" qbl =
      Except.ok fun b s h a =>
        mha_kernel E S (qbl.getD S) D q k v mask b h (s / qbl.getD S) (s % qbl.getD S) a := by
  simp [mha, compute_q_and_kv_block_len, hdvd]

theorem mha_reference_eq (E : ℚ → ℚ) (B S H D : ℕ) (q k v : Tensor) (mask im : Mask)
    (qbl : Option ℕ) (hdvd : S % qbl.getD S = 0) :
    mha E B S H D q k v mask im "reference" qbl =
      Except.ok (reference_mha_kernel E S D q k v mask) := by
  simp [mha, compute_q_and_kv_block_len, hdvd]

theorem le_rowMax (f : ℕ → ℚ) : ∀ S j, j < S → f j ≤ rowMax f S := by
  intro S
  induction S with
  | zero => intro j hj; omega
  | succ n ih =>
    intro j hj
    rcases Nat.lt_succ_iff_lt_or_eq.mp hj with h | h
    · exact (ih j h).trans (le_max_left _ _)
    · subst h; exact le_max_right _ _

theorem rowMax_exists (f : ℕ → ℚ) : ∀ S, 0 < S → ∃ j, j < S ∧ rowMax f S = f j := by
  intro S
  induction S with
  | zero => intro h; omega
  | succ n ih =>
    intro _
    rcases Nat.eq_zero_or_pos n with hn | hn
    · subst hn
      exact ⟨0, Nat.zero_lt_one, max_self (f 0)⟩
    · obtain ⟨j, hj, hEq⟩ := ih hn
      rcases le_total (rowMax f n) (f n) with h | h
      · exact ⟨n, Nat.lt_succ_self n, max_eq_right h⟩
      · exact ⟨j, hj.trans (Nat.lt_succ_self n), (max_eq_left h).trans hEq⟩

theorem rowMax_congr (f g : ℕ → ℚ) :
    ∀ S, 0 < S → (∀ m, m < S → f m = g m) → rowMax f S = rowMax g S := by
  intro S
  induction S with
  | zero => intro h; omega
  | succ n ih =>
    intro _ h
    rcases Nat.eq_zero_or_pos n with hn | hn
    · subst hn
      show max (f 0) (f 0) = max (g 0) (g 0)
      rw [h 0 Nat.zero_lt_one]
    · show max (rowMax f n) (f n) = max (rowMax g n) (g n)
      rw [ih hn (fun m hm => h m (hm.trans (Nat.lt_succ_self n))),
        h n (Nat.lt_succ_self n)]

theorem rowMax_const (f : ℕ → ℚ) (c : ℚ) :
    ∀ S, 0 < S → (∀ m, m < S → f m = c) → rowMax f S = c := by
  intro S
  induction S with
  | zero => intro h; omega
  | succ n ih =>
    intro _ h
    rcases Nat.eq_zero_or_pos n with hn | hn
    · subst hn
      show max (f 0) (f 0) = c
      rw [h 0 Nat.zero_lt_one, max_self]
    · show max (rowMax f n) (f n) = c
      rw [ih hn (fun m hm => h m (hm.trans (Nat.lt_succ_self n))),
        h n (Nat.lt_succ_self n), max_self]

theorem FloatExpLike.nonneg (E : ℚ → ℚ) (hE : FloatExpLike E) (x : ℚ) : 0 ≤ E x := by
  rcases le_or_lt x (-(10 ^ 18)) with h | h
  · rw [hE.1 x h]
  · exact (hE.2 x h).le

theorem FloatExpLike.pos_zero (E : ℚ → ℚ) (hE : FloatExpLike E) : 0 < E 0 :=
  hE.2 0 (by norm_num)

theorem softmaxDenom_congr (E : ℚ → ℚ) (S : ℕ) (f g : ℕ → ℚ) (hS : 0 < S)
    (h : ∀ m, m < S → f m = g m) : softmaxDenom E S f = softmaxDenom E S g := by
  unfold softmaxDenom
  refine Finset.sum_congr rfl fun m hm => ?_
  rw [h m (Finset.mem_range.mp hm), rowMax_congr f g S hS h]

theorem softmaxRow_congr (E : ℚ → ℚ) (S : ℕ) (f g : ℕ → ℚ) (j : ℕ) (hS : 0 < S)
    (h : ∀ m, m < S → f m = g m) (hj : j < S) : softmaxRow E S f j = softmaxRow E S g j := by
  unfold softmaxRow
  rw [h j hj, rowMax_congr f g S hS h, softmaxDenom_congr E S f g hS h]

theorem softmaxDenom_of_const (E : ℚ → ℚ) (S : ℕ) (f : ℕ → ℚ) (c : ℚ) (hS : 0 < S)
    (h : ∀ m, m < S → f m = c) : softmaxDenom E S f = S * E 0 := by
  unfold softmaxDenom
  rw [Finset.sum_congr rfl fun m hm => ?_, Finset.sum_const, Finset.card_range,
    nsmul_eq_mul]
  rw [h m (Finset.mem_range.mp hm), rowMax_const f c S hS h, sub_self]

theorem softmaxRow_of_const (E : ℚ → ℚ) (S : ℕ) (f : ℕ → ℚ) (c : ℚ) (j : ℕ)
    (hE : FloatExpLike E) (hS : 0 < S) (h : ∀ m, m < S → f m = c) (hj : j < S) :
    softmaxRow E S f j = 1 / S := by
  unfold softmaxRow
  rw [softmaxDenom_of_const E S f c hS h, h j hj, rowMax_const f c S hS h, sub_self]
  have hE0 : (0 : ℚ) < E 0 := FloatExpLike.pos_zero E hE
  have hSQ : (0 : ℚ) < (S : ℚ) := by exact_mod_cast hS
  rw [div_eq_div_iff (mul_pos hSQ hE0).ne' hSQ.ne']
  ring

theorem softmaxRow_sentinel (E : ℚ → ℚ) (S : ℕ) (f : ℕ → ℚ) (j : ℕ)
    (hE : FloatExpLike E) (hmax : -(10 ^ 19) ≤ rowMax f S) (hfj : f j = sentinel) :
    softmaxRow E S f j = 0 := by
  unfold softmaxRow
  rw [hfj, hE.1 (sentinel - rowMax f S) (by unfold sentinel; linarith), zero_div]

theorem pallas_s_eq_ref (L D : ℕ) (q k : Tensor) (mask : Mask) (b h t i j : ℕ) :
    pallas_s L D q k mask b h t i j = refMaskedScores D q k mask b (t * L + i) h j := by
  cases hq : mask b (t * L + i) <;> cases hk : mask b j <;>
    simp [pallas_s, refMaskedScores, pallas_square_mask, pallas_q_mask, refSquareMask,
      refScores, pallas_q, pallas_k, hq, hk]

theorem pallas_p_eq_ref (E : ℚ → ℚ) (S L D : ℕ) (q k : Tensor) (mask : Mask)
    (b h t i j : ℕ) :
    pallas_p E S L D q k mask b h t i j = refP E S D q k mask b (t * L + i) h j := by
  unfold pallas_p refP
  rw [show pallas_s L D q k mask b h t i = refMaskedScores D q k mask b (t * L + i) h from
    funext fun m => pallas_s_eq_ref L D q k mask b h t i m]

theorem refP_eq_zero_of_masked_key (E : ℚ → ℚ) (S D : ℕ) (q k : Tensor) (mask : Mask)
    (b i h j : ℕ) (hE : FloatExpLike E) (hi : i < S) (hm : mask b i = true)
    (Hb : -(10 ^ 19) ≤ refScores D q k b i h i) (hkj : mask b j = false) :
    refP E S D q k mask b i h j = 0 := by
  unfold refP
  apply softmaxRow_sentinel E S _ j hE
  · have h1 : refMaskedScores D q k mask b i h i = refScores D q k b i h i := by
      simp [refMaskedScores, refSquareMask, hm]
    have h2 := le_rowMax (refMaskedScores D q k mask b i h) S i hi
    linarith [h1 ▸ h2]
  · simp [refMaskedScores, refSquareMask, hkj]

theorem mha_kernel_eq_ref_row (E : ℚ → ℚ) (S L D : ℕ) (q k v : Tensor) (mask : Mask)
    (b h t i a : ℕ) (hE : FloatExpLike E) (hlt : t * L + i < S)
    (hm : mask b (t * L + i) = true)
    (Hb : -(10 ^ 19) ≤ refScores D q k b (t * L + i) h (t * L + i)) :
    mha_kernel E S L D q k v mask b h t i a =
      reference_mha_kernel E S D q k v mask b (t * L + i) h a := by
  unfold mha_kernel reference_mha_kernel
  refine Finset.sum_congr rfl fun j hj => ?_
  rw [pallas_p_eq_ref]
  cases hkj : mask b j with
  | true => simp [pallas_v, hkj]
  | false =>
    rw [refP_eq_zero_of_masked_key E S D q k mask b (t * L + i) h j hE hlt hm Hb hkj,
      zero_mul, zero_mul]

theorem pallas_fullyMasked_p (E : ℚ → ℚ) (S L D : ℕ) (q k : Tensor) (mask : Mask)
    (b h t i j : ℕ) (hE : FloatExpLike E) (hS : 0 < S) (hm : mask b (t * L + i) = false)
    (hj : j < S) : pallas_p E S L D q k mask b h t i j = 1 / S := by
  unfold pallas_p
  refine softmaxRow_of_const E S _ sentinel j hE hS (fun m _ => ?_) hj
  simp [pallas_s, pallas_square_mask, pallas_q_mask, hm]

theorem ref_fullyMasked_p (E : ℚ → ℚ) (S D : ℕ) (q k : Tensor) (mask : Mask)
    (b i h j : ℕ) (hE : FloatExpLike E) (hS : 0 < S) (hm : mask b i = false)
    (hj : j < S) : refP E S D q k mask b i h j = 1 / S := by
  unfold refP
  refine softmaxRow_of_const E S _ sentinel j hE hS (fun m _ => ?_) hj
  simp [refMaskedScores, refSquareMask, hm]

theorem mha_kernel_fullyMasked_out (E : ℚ → ℚ) (S L D : ℕ) (q k v : Tensor)
    (mask : Mask) (b h t i a : ℕ) (hE : FloatExpLike E) (hS : 0 < S)
    (hm : mask b (t * L + i) = false) :
    mha_kernel E S L D q k v mask b h t i a =
      1 / S * (Finset.range S).sum fun j => if mask b j then v b j h a else 0 := by
  unfold mha_kernel
  rw [Finset.mul_sum]
  refine Finset.sum_congr rfl fun j hj => ?_
  rw [pallas_fullyMasked_p E S L D q k mask b h t i j hE hS hm (Finset.mem_range.mp hj)]
  simp [pallas_v]

theorem ref_fullyMasked_out (E : ℚ → ℚ) (S D : ℕ) (q k v : Tensor) (mask : Mask)
    (b i h a : ℕ) (hE : FloatExpLike E) (hS : 0 < S) (hm : mask b i = false) :
    reference_mha_kernel E S D q k v mask b i h a =
      1 / S * (Finset.range S).sum fun j => v b j h a := by
  unfold reference_mha_kernel
  rw [Finset.mul_sum]
  refine Finset.sum_congr rfl fun j hj => ?_
  rw [ref_fullyMasked_p E S D q k mask b i h j hE hS hm (Finset.mem_range.mp hj)]

theorem mha_kernel_congr_masked (E : ℚ → ℚ) (S L D : ℕ) (q k k2 v v2 : Tensor)
    (mask : Mask) (b h t i a : ℕ) (hS : 0 < S) (ha : a < D)
    (Hagree : ∀ j c, j < S → c < D → mask b j = true →
      k b j h c = k2 b j h c ∧ v b j h c = v2 b j h c) :
    mha_kernel E S L D q k v mask b h t i a = mha_kernel E S L D q k2 v2 mask b h t i a := by
  unfold mha_kernel
  refine Finset.sum_congr rfl fun j hj => ?_
  have hs : ∀ m, m < S →
      pallas_s L D q k mask b h t i m = pallas_s L D q k2 mask b h t i m := by
    intro m hmS
    cases hkm : mask b m with
    | false => simp [pallas_s, pallas_square_mask, hkm]
    | true =>
      unfold pallas_s
      refine if_congr Iff.rfl ?_ rfl
      refine Finset.sum_congr rfl fun c hc => ?_
      rw [pallas_k, pallas_k, if_pos hkm, if_pos hkm,
        (Hagree m c hmS (Finset.mem_range.mp hc) hkm).1]
  have hp : pallas_p E S L D q k mask b h t i j = pallas_p E S L D q k2 mask b h t i j := by
    unfold pallas_p
    exact softmaxRow_congr E S _ _ j hS hs (Finset.mem_range.mp hj)
  have hv : pallas_v v mask b h j a = pallas_v v2 mask b h j a := by
    cases hkj : mask b j with
    | false => simp [pallas_v, hkj]
    | true => simp [pallas_v, hkj, (Hagree j a (Finset.mem_range.mp hj) ha hkj).2]
  rw [hp, hv]

theorem ref_congr_masked (E : ℚ → ℚ) (S D : ℕ) (q k k2 v v2 : Tensor) (mask : Mask)
    (b i h a : ℕ) (hE : FloatExpLike E) (hS : 0 < S) (hi : i < S) (ha : a < D)
    (hm : mask b i = true)
    (Hagree : ∀ j c, j < S → c < D → mask b j = true →
      k b j h c = k2 b j h c ∧ v b j h c = v2 b j h c)
    (Hb : -(10 ^ 19) ≤ refScores D q k b i h i) :
    reference_mha_kernel E S D q k v mask b i h a =
      reference_mha_kernel E S D q k2 v2 mask b i h a := by
  unfold reference_mha_kernel
  refine Finset.sum_congr rfl fun j hj => ?_
  have hs : ∀ m, m < S →
      refMaskedScores D q k mask b i h m = refMaskedScores D q k2 mask b i h m := by
    intro m hmS
    cases hkm : mask b m with
    | false => simp [refMaskedScores, refSquareMask, hkm]
    | true =>
      unfold refMaskedScores
      refine if_congr Iff.rfl ?_ rfl
      unfold refScores
      refine Finset.sum_congr rfl fun c hc => ?_
      rw [(Hagree m c hmS (Finset.mem_range.mp hc) hkm).1]
  have hp2 : refP E S D q k mask b i h j = refP E S D q k2 mask b i h j := by
    unfold refP
    exact softmaxRow_congr E S _ _ j hS hs (Finset.mem_range.mp hj)
  cases hkj : mask b j with
  | false =>
    have h0 : refP E S D q k mask b i h j = 0 :=
      refP_eq_zero_of_masked_key E S D q k mask b i h j hE hi hm Hb hkj
    rw [h0, ← hp2, h0, zero_mul, zero_mul]
  | true =>
    rw [hp2, (Hagree j a (Finset.mem_range.mp hj) ha hkj).2]

/-- C5: Sentinel masking — in both kernels the pre-softmax score at `(i, j)` equals
the raw dot product `q·k` exactly when both the query and the key position are valid
in the batch element, and the sentinel `-1e20` otherwise. -/
theorem sentinel_masking_both_kernels (L D : ℕ) (q k : Tensor) (mask : Mask)
    (b h t i j : ℕ) :
    pallas_s L D q k mask b h t i j =
      (if mask b (t * L + i) && mask b j then refScores D q k b (t * L + i) h j
        else sentinel) ∧
    refMaskedScores D q k mask b i h j =
      (if mask b i && mask b j then refScores D q k b i h j else sentinel) := by
  constructor
  · cases hq : mask b (t * L + i) <;> cases hk : mask b j <;>
      simp [pallas_s, pallas_square_mask, pallas_q_mask, refScores, pallas_q, pallas_k,
        hq, hk]
  · cases hq : mask b i <;> cases hk : mask b j <;>
      simp [refMaskedScores, refSquareMask, hq, hk]

/-- C9: The unused `input_mask` parameter is accepted and ignored — two calls to
`mha` that differ only in `input_mask` return identical results (in particular,
`input_mask` can never cause a failure). -/
theorem mha_ignores_input_mask (E : ℚ → ℚ) (B S H D : ℕ) (q k v : Tensor)
    (mask im im2 : Mask) (kern : String) (qbl : Option ℕ) :
    mha E B S H D q k v mask im kern qbl = mha E B S H D q k v mask im2 kern qbl := rfl

/-- C8: Tiling planner contract — the planner fails with a configuration error
exactly when the sequence length is not evenly divisible by the chosen query block
length (the override, or the sequence length itself when absent), and otherwise
returns the full sequence length as the key/value block length. -/
theorem compute_q_and_kv_block_len_contract (S : ℕ) (qbl : Option ℕ) :
    (S % qbl.getD S ≠ 0 →
      compute_q_and_kv_block_len S qbl =
        Except.error "Sequence length must be divisible by the query block length") ∧
    (S % qbl.getD S = 0 →
      compute_q_and_kv_block_len S qbl = Except.ok (qbl.getD S, S)) := by
  constructor <;> intro h <;> simp [compute_q_and_kv_block_len, h]

/-- Witness for C8 at concrete inputs: `4 % 3 ≠ 0` fails, `4 % 2 = 0` returns the
full sequence length `4` as key/value block length. -/
theorem compute_q_and_kv_block_len_contract_witness :
    compute_q_and_kv_block_len 4 (some 3) =
      Except.error "Sequence length must be divisible by the query block length" ∧
    compute_q_and_kv_block_len 4 (some 2) = Except.ok (2, 4) :=
  ⟨(compute_q_and_kv_block_len_contract 4 (some 3)).1 (by decide),
    (compute_q_and_kv_block_len_contract 4 (some 2)).2 (by decide)⟩

/-- C4 (amended): when the override — or the default — evenly divides the sequence
length, the `"reference"` backend succeeds and returns exactly the reference
kernel's result, unaffected by the override; a non-dividing override instead fails
in the planner (see the counterexample). -/
theorem mha_reference_ignores_tiling (E : ℚ → ℚ) (B S H D : ℕ) (q k v : Tensor)
    (mask im : Mask) (qbl : Option ℕ) (hdvd : S % qbl.getD S = 0) :
    mha E B S H D q k v mask im "reference" qbl =
      Except.ok (reference_mha_kernel E S D q k v mask) :=
  mha_reference_eq E B S H D q k v mask im qbl hdvd

/-- Witness for C4 at a concrete input with tile override `1` dividing length `2`. -/
theorem mha_reference_ignores_tiling_witness :
    mha Efl 1 2 1 1 qZero qZero vC mTF mTT "reference" (some 1) =
      Except.ok (reference_mha_kernel Efl 2 1 qZero qZero vC mTF) :=
  mha_reference_ignores_tiling Efl 1 2 1 1 qZero qZero vC mTF mTT (some 1) (by decide)

/-- Counterexample to C4 as stated: with a tile-length override `3` that does not
divide the sequence length `2`, the call with the `"reference"` backend fails in
the planner instead of succeeding, because `mha` runs the planner before the
backend branch. -/
theorem mha_reference_tiling_cex :
    (2 : ℕ) % 3 ≠ 0 ∧
    (mha Efl 1 2 1 1 qZero qZero vC mTF mTT "reference" (some 3)).isOk = false := by
  constructor
  · decide
  · simp [mha, compute_q_and_kv_block_len, Except.isOk, Except.toBool]

/-- C3 (amended): the two backend names the dispatcher accepts are `"pallas"` and
`"reference"`; for every other selector the call fails with an error — before any
attention arithmetic — and no output tensor is produced. -/
theorem mha_unknown_backend_errors (E : ℚ → ℚ) (B S H D : ℕ) (q k v : Tensor)
    (mask im : Mask) (kern : String) (qbl : Option ℕ)
    (h1 : kern ≠ "pallas") (h2 : kern ≠ "reference") :
    ∃ e, mha E B S H D q k v mask im kern qbl = Except.error e := by
  rcases hplan : compute_q_and_kv_block_len S qbl with e | p
  · exact ⟨e, by simp [mha, hplan]⟩
  · obtain ⟨qbl2, kv2⟩ := p
    exact ⟨String.append "Unknown multi-head attention kernel: " kern,
      by simp [mha, hplan, h1, h2]⟩

/-- Witness for C3 at the concrete selector `"tiled"` (which the code rejects). -/
theorem mha_unknown_backend_errors_witness :
    ∃ e, mha Efl 1 2 1 1 qZero qZero vC mTF mTT "tiled" none = Except.error e :=
  mha_unknown_backend_errors Efl 1 2 1 1 qZero qZero vC mTF mTT "tiled" none
    (by decide) (by decide)

/-- Counterexample to C3 as stated: the selector `"pallas"` lies outside the claimed
accepted set `{tiled, reference}`, yet the call succeeds rather than failing. -/
theorem mha_backend_names_cex :
    ¬("pallas" = "tiled" ∨ "pallas" = "reference") ∧
    (mha Efl 1 2 1 1 qZero qZero vC mTF mTT "pallas" none).isOk = true := by
  constructor
  · decide
  · rw [mha_pallas_eq Efl 1 2 1 1 qZero qZero vC mTF mTT none (by decide)]
    rfl

/-- C1 (amended): for every input with scores bounded below by `-1e19` on valid
pairs and every tile length that evenly divides the sequence length, the pallas
(tiled) backend of `mha` returns exactly the reference backend's output at every
query position that is valid (`mask b i = true`); at fully masked query rows the
two backends may differ (see the counterexample). -/
theorem mha_backend_equivalence_valid_rows (E : ℚ → ℚ) (B S H D L : ℕ)
    (q k v : Tensor) (mask im : Mask) (b i h a : ℕ)
    (hE : FloatExpLike E) (hS : 0 < S) (hdvd : S % L = 0) (hi : i < S)
    (hm : mask b i = true)
    (Hb : ∀ i1 j, i1 < S → j < S → mask b i1 = true → mask b j = true →
      -(10 ^ 19) ≤ refScores D q k b i1 h j) :
    outAt (mha E B S H D q k v mask im "pallas" (some L)) b i h a =
      outAt (mha E B S H D q k v mask im "reference" none) b i h a := by
  rw [mha_pallas_eq E B S H D q k v mask im (some L) hdvd,
    mha_reference_eq E B S H D q k v mask im none (Nat.mod_self S)]
  simp only [outAt, Option.getD_some]
  have hkey : i / L * L + i % L = i := by rw [mul_comm]; exact Nat.div_add_mod i L
  have hmain := mha_kernel_eq_ref_row E S L D q k v mask b h (i / L) (i % L) a hE
    (by rw [hkey]; exact hi) (by rw [hkey]; exact hm)
    (by rw [hkey]; exact Hb i i hi hi hm hm)
  rw [hkey] at hmain
  exact hmain

/-- Witness for C1 at a concrete input: sequence length `2`, tile length `1`,
valid query row `0`. -/
theorem mha_backend_equivalence_valid_rows_witness :
    outAt (mha Efl 1 2 1 1 qZero qZero vC mTF mTT "pallas" (some 1)) 0 0 0 0 =
      outAt (mha Efl 1 2 1 1 qZero qZero vC mTF mTT "reference" none) 0 0 0 0 :=
  mha_backend_equivalence_valid_rows Efl 1 2 1 1 1 qZero qZero vC mTF mTT 0 0 0 0
    Efl_floatExpLike (by decide) (by decide) (by decide) (by decide)
    (by intro i1 j h1 h2 h3 h4
        norm_num [refScores, qZero, Finset.sum_range_one])

/-- Counterexample to C1 as stated: with mask `[true, false]`, `Q = K = 0` and
`V = [0, 2]`, the tile length `2` evenly divides the sequence length `2`, yet at
the fully masked query row `1` the pallas backend returns `0` while the reference
backend returns `1` — far beyond any small floating-point tolerance. -/
theorem mha_backend_equivalence_cex :
    FloatExpLike Efl ∧ (2 : ℕ) % 2 = 0 ∧
    outAt (mha Efl 1 2 1 1 qZero qZero vC mTF mTT "pallas" (some 2)) 0 1 0 0 = 0 ∧
    outAt (mha Efl 1 2 1 1 qZero qZero vC mTF mTT "reference" (some 2)) 0 1 0 0 = 1 ∧
    ¬|outAt (mha Efl 1 2 1 1 qZero qZero vC mTF mTT "pallas" (some 2)) 0 1 0 0 -
        outAt (mha Efl 1 2 1 1 qZero qZero vC mTF mTT "reference" (some 2)) 0 1 0 0| ≤
      1 / 100000 *
        |outAt (mha Efl 1 2 1 1 qZero qZero vC mTF mTT "reference" (some 2)) 0 1 0 0| := by
  have hp : outAt (mha Efl 1 2 1 1 qZero qZero vC mTF mTT "pallas" (some 2)) 0 1 0 0
      = 0 := by
    norm_num [outAt, mha, compute_q_and_kv_block_len, mha_kernel,
      pallas_p, pallas_s, pallas_q, pallas_k, pallas_v, pallas_q_mask,
      pallas_square_mask, softmaxRow, softmaxDenom, rowMax, sentinel, Efl, qZero, vC,
      mTF, Finset.sum_range_succ, Finset.sum_range_zero]
  have hr : outAt (mha Efl 1 2 1 1 qZero qZero vC mTF mTT "reference" (some 2)) 0 1 0 0
      = 1 := by
    rw [mha_reference_eq Efl 1 2 1 1 qZero qZero vC mTF mTT (some 2) (by decide)]
    norm_num [outAt, reference_mha_kernel, refP, refMaskedScores, refScores,
      refSquareMask, softmaxRow, softmaxDenom, rowMax, sentinel, Efl, qZero, vC, mTF,
      Finset.sum_range_succ, Finset.sum_range_zero]
  refine ⟨Efl_floatExpLike, by decide, hp, hr, ?_⟩
  rw [hp, hr]
  norm_num

/-- C2 (amended): if two runs differ only in the key/value rows of masked
positions of batch element `b`, then the pallas backend's output is unchanged at
every query position, and the reference backend's output is unchanged at every
valid query position (`mask b i = true`); at fully masked query rows the reference
backend does depend on masked value rows (see the counterexample). -/
theorem mha_mask_exclusivity (E : ℚ → ℚ) (B S H D L : ℕ) (q k k2 v v2 : Tensor)
    (mask im : Mask) (b i h a : ℕ)
    (hE : FloatExpLike E) (hS : 0 < S) (hdvd : S % L = 0) (hi : i < S) (ha : a < D)
    (Hagree : ∀ j c, j < S → c < D → mask b j = true →
      k b j h c = k2 b j h c ∧ v b j h c = v2 b j h c)
    (Hb : ∀ i1 j, i1 < S → j < S → mask b i1 = true → mask b j = true →
      -(10 ^ 19) ≤ refScores D q k b i1 h j) :
    outAt (mha E B S H D q k v mask im "pallas" (some L)) b i h a =
      outAt (mha E B S H D q k2 v2 mask im "pallas" (some L)) b i h a ∧
    (mask b i = true →
      outAt (mha E B S H D q k v mask im "reference" (some L)) b i h a =
        outAt (mha E B S H D q k2 v2 mask im "reference" (some L)) b i h a) := by
  constructor
  · rw [mha_pallas_eq E B S H D q k v mask im (some L) hdvd,
      mha_pallas_eq E B S H D q k2 v2 mask im (some L) hdvd]
    simp only [outAt, Option.getD_some]
    exact mha_kernel_congr_masked E S L D q k k2 v v2 mask b h (i / L) (i % L) a
      hS ha Hagree
  · intro hm
    rw [mha_reference_eq E B S H D q k v mask im (some L) hdvd,
      mha_reference_eq E B S H D q k2 v2 mask im (some L) hdvd]
    simp only [outAt]
    exact ref_congr_masked E S D q k k2 v v2 mask b i h a hE hS hi ha hm Hagree
      (Hb i i hi hi hm hm)

/-- Witness for C2 at a concrete input: two value tensors that agree on the valid
position `0` and differ on the masked position `1`. -/
theorem mha_mask_exclusivity_witness :
    outAt (mha Efl 1 2 1 1 qZero qZero qZero mTF mTT "pallas" (some 1)) 0 0 0 0 =
      outAt (mha Efl 1 2 1 1 qZero qZero vC mTF mTT "pallas" (some 1)) 0 0 0 0 ∧
    (mTF 0 0 = true →
      outAt (mha Efl 1 2 1 1 qZero qZero qZero mTF mTT "reference" (some 1)) 0 0 0 0 =
        outAt (mha Efl 1 2 1 1 qZero qZero vC mTF mTT "reference" (some 1)) 0 0 0 0) :=
  mha_mask_exclusivity Efl 1 2 1 1 1 qZero qZero qZero qZero vC mTF mTT 0 0 0 0
    Efl_floatExpLike (by decide) (by decide) (by decide) (by decide)
    (by intro j c hj hc hmj
        have hj0 : j = 0 := by simpa [mTF] using hmj
        subst hj0
        constructor <;> norm_num [qZero, vC])
    (by intro i1 j h1 h2 h3 h4
        norm_num [refScores, qZero, Finset.sum_range_one])

/-- Counterexample to C2 as stated: position `1` is masked in batch element `0`,
the two value tensors differ only there, yet the reference backend's output at
query position `1` of that batch element changes (`0` versus `1`). -/
theorem mha_mask_exclusivity_cex :
    FloatExpLike Efl ∧
    mTF 0 1 = false ∧
    (∀ bb jj hh aa, bb < 1 → jj < 2 → hh < 1 → aa < 1 → ¬(bb = 0 ∧ jj = 1) →
      qZero bb jj hh aa = vC bb jj hh aa) ∧
    outAt (mha Efl 1 2 1 1 qZero qZero qZero mTF mTT "reference" none) 0 1 0 0 ≠
      outAt (mha Efl 1 2 1 1 qZero qZero vC mTF mTT "reference" none) 0 1 0 0 := by
  refine ⟨Efl_floatExpLike, by decide, ?_, ?_⟩
  · intro bb jj hh aa h1 h2 h3 h4 h5
    have hjj : jj = 0 := by omega
    subst hjj
    norm_num [qZero, vC]
  · have h1 : outAt (mha Efl 1 2 1 1 qZero qZero qZero mTF mTT "reference" none) 0 1 0 0
        = 0 := by
      rw [mha_reference_eq Efl 1 2 1 1 qZero qZero qZero mTF mTT none (by decide)]
      norm_num [outAt, reference_mha_kernel, refP, refMaskedScores, refScores,
        refSquareMask, softmaxRow, softmaxDenom, rowMax, sentinel, Efl, qZero, mTF,
        Finset.sum_range_succ, Finset.sum_range_zero]
    have h2 : outAt (mha Efl 1 2 1 1 qZero qZero vC mTF mTT "reference" none) 0 1 0 0
        = 1 := by
      rw [mha_reference_eq Efl 1 2 1 1 qZero qZero vC mTF mTT none (by decide)]
      norm_num [outAt, reference_mha_kernel, refP, refMaskedScores, refScores,
        refSquareMask, softmaxRow, softmaxDenom, rowMax, sentinel, Efl, qZero, vC, mTF,
        Finset.sum_range_succ, Finset.sum_range_zero]
    rw [h1, h2]
    norm_num

/-- C6: Fully-masked query row — for a query position whose mask entry is false,
both kernels' softmax rows are well defined: every score is the finite sentinel,
the softmax denominator is strictly positive (so no `0/0`, the NaN source), and
the probability row sums to exactly `1`; the outputs are therefore finite rational
combinations of the value rows. -/
theorem fully_masked_row_well_defined (E : ℚ → ℚ) (S L D : ℕ) (q k : Tensor)
    (mask : Mask) (b h t i : ℕ) (hE : FloatExpLike E) (hS : 0 < S)
    (hm : mask b (t * L + i) = false) :
    0 < softmaxDenom E S (pallas_s L D q k mask b h t i) ∧
    (Finset.range S).sum (fun j => pallas_p E S L D q k mask b h t i j) = 1 ∧
    0 < softmaxDenom E S (refMaskedScores D q k mask b (t * L + i) h) ∧
    (Finset.range S).sum (fun j => refP E S D q k mask b (t * L + i) h j) = 1 := by
  have hSQ : (0 : ℚ) < (S : ℚ) := by exact_mod_cast hS
  have hE0 := FloatExpLike.pos_zero E hE
  have hconst1 : ∀ m, m < S → pallas_s L D q k mask b h t i m = sentinel := by
    intro m _
    simp [pallas_s, pallas_square_mask, pallas_q_mask, hm]
  have hconst2 : ∀ m, m < S →
      refMaskedScores D q k mask b (t * L + i) h m = sentinel := by
    intro m _
    simp [refMaskedScores, refSquareMask, hm]
  refine ⟨?_, ?_, ?_, ?_⟩
  · rw [softmaxDenom_of_const E S _ sentinel hS hconst1]
    exact mul_pos hSQ hE0
  · rw [Finset.sum_congr rfl fun j hj =>
      pallas_fullyMasked_p E S L D q k mask b h t i j hE hS hm (Finset.mem_range.mp hj)]
    rw [Finset.sum_const, Finset.card_range, nsmul_eq_mul, mul_one_div, div_self hSQ.ne']
  · rw [softmaxDenom_of_const E S _ sentinel hS hconst2]
    exact mul_pos hSQ hE0
  · rw [Finset.sum_congr rfl fun j hj =>
      ref_fullyMasked_p E S D q k mask b (t * L + i) h j hE hS hm (Finset.mem_range.mp hj)]
    rw [Finset.sum_const, Finset.card_range, nsmul_eq_mul, mul_one_div, div_self hSQ.ne']

/-- Witness for C6 at a concrete input: sequence length `2`, masked query row `1`. -/
theorem fully_masked_row_well_defined_witness :
    0 < softmaxDenom Efl 2 (pallas_s 2 1 qZero qZero mTF 0 0 0 1) ∧
    (Finset.range 2).sum (fun j => pallas_p Efl 2 2 1 qZero qZero mTF 0 0 0 1 j) = 1 ∧
    0 < softmaxDenom Efl 2 (refMaskedScores 1 qZero qZero mTF 0 (0 * 2 + 1) 0) ∧
    (Finset.range 2).sum (fun j => refP Efl 2 1 qZero qZero mTF 0 (0 * 2 + 1) 0 j) = 1 :=
  fully_masked_row_well_defined Efl 2 2 1 qZero qZero mTF 0 0 0 1 Efl_floatExpLike
    (by decide) (by decide)

/-- C10: on a fully masked query row the device kernel's scores are all the
sentinel, its softmax weights are exactly uniform `1/S`, and its output row is
`1/S` times the sum of the value rows at valid positions only (value rows at
invalid positions are zeroed), whereas the reference kernel — which does not zero
value rows — returns `1/S` times the sum over all positions. -/
theorem fully_masked_row_outputs (E : ℚ → ℚ) (S L D : ℕ) (q k v : Tensor)
    (mask : Mask) (b h t i a : ℕ) (hE : FloatExpLike E) (hS : 0 < S)
    (hm : mask b (t * L + i) = false) :
    (∀ j, j < S → pallas_s L D q k mask b h t i j = sentinel) ∧
    (∀ j, j < S → pallas_p E S L D q k mask b h t i j = 1 / S) ∧
    mha_kernel E S L D q k v mask b h t i a =
      1 / S * (Finset.range S).sum (fun j => if mask b j then v b j h a else 0) ∧
    (∀ j, j < S → refP E S D q k mask b (t * L + i) h j = 1 / S) ∧
    reference_mha_kernel E S D q k v mask b (t * L + i) h a =
      1 / S * (Finset.range S).sum (fun j => v b j h a) := by
  refine ⟨?_, ?_, ?_, ?_, ?_⟩
  · intro j _
    simp [pallas_s, pallas_square_mask, pallas_q_mask, hm]
  · intro j hj
    exact pallas_fullyMasked_p E S L D q k mask b h t i j hE hS hm hj
  · exact mha_kernel_fullyMasked_out E S L D q k v mask b h t i a hE hS hm
  · intro j hj
    exact ref_fullyMasked_p E S D q k mask b (t * L + i) h j hE hS hm hj
  · exact ref_fullyMasked_out E S D q k v mask b (t * L + i) h a hE hS hm

/-- Witness for C10 at a concrete input: sequence length `2`, masked query row `1`,
value tensor `[0, 2]`. -/
theorem fully_masked_row_outputs_witness :
    (∀ j, j < 2 → pallas_s 2 1 qZero qZero mTF 0 0 0 1 j = sentinel) ∧
    (∀ j, j < 2 →
      pallas_p Efl 2 2 1 qZero qZero mTF 0 0 0 1 j = 1 / ((2 : ℕ) : ℚ)) ∧
    mha_kernel Efl 2 2 1 qZero qZero vC mTF 0 0 0 1 0 =
      1 / ((2 : ℕ) : ℚ) *
        (Finset.range 2).sum (fun j => if mTF 0 j then vC 0 j 0 0 else 0) ∧
    (∀ j, j < 2 →
      refP Efl 2 1 qZero qZero mTF 0 (0 * 2 + 1) 0 j = 1 / ((2 : ℕ) : ℚ)) ∧
    reference_mha_kernel Efl 2 1 qZero qZero vC mTF 0 (0 * 2 + 1) 0 0 =
      1 / ((2 : ℕ) : ℚ) * (Finset.range 2).sum (fun j => vC 0 j 0 0) :=
  fully_masked_row_outputs Efl 2 2 1 qZero qZero vC mTF 0 0 0 1 0 Efl_floatExpLike
    (by decide) (by decide)

/-- C7: Shape preservation — for shape-matching inputs, whenever the dispatcher
returns a tensor (either backend), that tensor's shape is exactly Q's shape; the
embedding represents all inputs as immutable values, so no input is mutated. -/
theorem mha_shaped_preserves_shape (E : ℚ → ℚ) (q k v : Tensor4) (mask im : Mask)
    (kern : String) (qbl : Option ℕ) (hk : k.shape = q.shape) (hv : v.shape = q.shape)
    (hok : (mha_shaped E q k v mask im kern qbl).isOk = true) :
    shapeOf (mha_shaped E q k v mask im kern qbl) = q.shape := by
  rcases hplan : compute_q_and_kv_block_len q.shape.2.1 qbl with e | p
  · simp only [mha_shaped, hplan] at hok
    simp [Except.isOk, Except.toBool] at hok
  · obtain ⟨qbl2, kv2⟩ := p
    by_cases h1 : kern = "pallas"
    · simp [mha_shaped, hplan, h1, shapeOf]
    · by_cases h2 : kern = "reference"
      · simp [mha_shaped, hplan, h1, h2, shapeOf, hv, Prod.mk.eta]
      · simp only [mha_shaped, hplan] at hok
        simp [h1, h2, Except.isOk, Except.toBool] at hok

/-- Witness for C7 at concrete shaped tensors with the reference backend. -/
theorem mha_shaped_preserves_shape_witness :
    shapeOf (mha_shaped Efl q4 q4 v4 mTF mTT "reference" none) = q4.shape :=
  mha_shaped_preserves_shape Efl q4 q4 v4 mTF mTT "reference" none rfl rfl (by decide)
